import Mathlib

/-!
Verification of the trip-planning and schedule-generation engine of the
truck-logistics planner server (`routes/views.py`, `routes/models.py`,
`routes/serializers.py`).

Python floats are modelled as exact rationals (`ℚ`); Python's `round(x, 2)`
is modelled as rounding to the nearest hundredth with ties to even
(`round2`), and Python's `int(...)` truncation toward zero as `pyInt`.
Machine data rows are plain Lean structures mirroring the Django models.
-/

/-- Rounding of a rational to the nearest integer with ties going to the
even integer, as Python's builtin `round` does. -/
def roundHalfEven (q : ℚ) : ℤ :=
  if q - ⌊q⌋ < 1/2 then ⌊q⌋
  else if 1/2 < q - ⌊q⌋ then ⌊q⌋ + 1
  else if ⌊q⌋ % 2 = 0 then ⌊q⌋ else ⌊q⌋ + 1

/-- Python's `round(x, 2)`: round to the nearest hundredth, ties to even. -/
def round2 (q : ℚ) : ℚ := ((roundHalfEven (q * 100) : ℤ) : ℚ) / 100

/-- Python's `int(x)` truncation toward zero, as applied both by explicit
`int(...)` casts in `views.py` and by Django `IntegerField` persistence. -/
def pyInt (q : ℚ) : ℤ := if q < 0 then -⌊-q⌋ else ⌊q⌋

lemma pyInt_of_nonneg {q : ℚ} (h : 0 ≤ q) : pyInt q = ⌊q⌋ :=
  if_neg (not_lt.mpr (by linarith [Int.floor_nonneg.mpr h]))

lemma le_roundHalfEven (q : ℚ) : ⌊q⌋ ≤ roundHalfEven q := by
  unfold roundHalfEven
  split_ifs <;> omega

lemma roundHalfEven_le (q : ℚ) : roundHalfEven q ≤ ⌈q⌉ := by
  have hfl : (⌊q⌋ : ℚ) ≤ q := Int.floor_le q
  unfold roundHalfEven
  split_ifs with h1 h2 h3
  · exact Int.floor_le_ceil q
  · have hlt : (⌊q⌋ : ℚ) < q := by
      have := not_lt.mp h1
      linarith
    have := Int.lt_ceil.mpr hlt
    omega
  · exact Int.floor_le_ceil q
  · have hlt : (⌊q⌋ : ℚ) < q := by
      have := not_lt.mp h1
      linarith
    have := Int.lt_ceil.mpr hlt
    omega

lemma roundHalfEven_intCast (n : ℤ) : roundHalfEven (n : ℚ) = n := by
  unfold roundHalfEven
  rw [Int.floor_intCast]
  norm_num

lemma roundHalfEven_add_two_mul (q : ℚ) (m : ℤ) :
    roundHalfEven (q + ((2 * m : ℤ) : ℚ)) = roundHalfEven q + 2 * m := by
  have h1 : q + ((2 * m : ℤ) : ℚ) - (⌊q + ((2 * m : ℤ) : ℚ)⌋ : ℚ) = q - ⌊q⌋ := by
    rw [Int.floor_add_int]
    push_cast
    ring
  unfold roundHalfEven
  rw [h1, Int.floor_add_int]
  have hmod : (⌊q⌋ + 2 * m) % 2 = ⌊q⌋ % 2 := by omega
  rw [hmod]
  split_ifs <;> omega

lemma round2_intCast (n : ℤ) : round2 ((n : ℤ) : ℚ) = n := by
  unfold round2
  rw [show ((n : ℤ) : ℚ) * 100 = ((n * 100 : ℤ) : ℚ) by push_cast; ring,
    roundHalfEven_intCast]
  push_cast
  field_simp

lemma round2_add_int (q : ℚ) (n : ℤ) : round2 (q + (n : ℚ)) = round2 q + (n : ℚ) := by
  unfold round2
  rw [show (q + (n : ℚ)) * 100 = q * 100 + ((2 * (50 * n) : ℤ) : ℚ) by push_cast; ring,
    roundHalfEven_add_two_mul]
  push_cast
  ring

lemma intCast_le_round2 {n : ℤ} {q : ℚ} (h : (n : ℚ) ≤ q) : (n : ℚ) ≤ round2 q := by
  unfold round2
  have h1 : (n * 100 : ℤ) ≤ ⌊q * 100⌋ := by
    apply Int.le_floor.mpr
    push_cast
    nlinarith
  have h2 := le_roundHalfEven (q * 100)
  rw [le_div_iff₀ (by norm_num : (0 : ℚ) < 100)]
  exact_mod_cast le_trans h1 h2

lemma round2_le_intCast {n : ℤ} {q : ℚ} (h : q ≤ (n : ℚ)) : round2 q ≤ (n : ℚ) := by
  unfold round2
  have h1 : ⌈q * 100⌉ ≤ (n * 100 : ℤ) := by
    apply Int.ceil_le.mpr
    push_cast
    nlinarith
  have h2 := roundHalfEven_le (q * 100)
  rw [div_le_iff₀ (by norm_num : (0 : ℚ) < 100)]
  exact_mod_cast le_trans h2 h1

lemma round2_nonneg {q : ℚ} (h : 0 ≤ q) : 0 ≤ round2 q := by
  have h0 : ((0 : ℤ) : ℚ) ≤ q := by exact_mod_cast h
  have := intCast_le_round2 h0
  exact_mod_cast this

lemma round2_zero : round2 0 = 0 := by
  have := round2_intCast 0
  push_cast at this
  exact this

lemma round2_eleven : round2 (11 : ℚ) = 11 := by
  have := round2_intCast 11
  push_cast at this
  exact this

lemma round2_min_intCast (n : ℤ) (d : ℚ) :
    round2 (min ((n : ℤ) : ℚ) d) = min ((n : ℤ) : ℚ) (round2 d) := by
  rcases le_total ((n : ℤ) : ℚ) d with h | h
  · rw [min_eq_left h, min_eq_left (intCast_le_round2 h), round2_intCast]
  · rw [min_eq_right h, min_eq_right (round2_le_intCast h)]

lemma round2_sub_eleven (r : ℚ) : round2 r = round2 (r - 11) + 11 := by
  have h := round2_add_int (r - 11) 11
  push_cast at h
  rw [sub_add_cancel] at h
  linarith

/-!
Data model, mirroring `routes/models.py`. Django primary keys, foreign keys
and timestamps are persistence concerns; a `Stop` / `DailySchedule` row is
modelled by its payload fields, and ownership by the containing lists of
the planning result.
-/

/-- A row of the `Stop` model: `stop_type`, `location`, `mile_marker`,
`duration_hours` (`routes/models.py`). -/
structure Stop where
  stop_type : String
  location : String
  mile_marker : ℚ
  duration_hours : ℚ
deriving DecidableEq

/-- A row of the `DailySchedule` model: `day_number`, `driving_hours`,
`on_duty_hours`, `off_duty_hours`, `notes` (`routes/models.py`). -/
structure DailySchedule where
  day_number : ℕ
  driving_hours : ℚ
  on_duty_hours : ℚ
  off_duty_hours : ℚ
  notes : String
deriving DecidableEq

/-- A row of the `Trip` model (`routes/models.py`). `current_cycle_hours`
is a Django `IntegerField`, hence `ℤ`; the distance and drive-hours fields
are `FloatField`s, modelled as `ℚ`. -/
structure Trip where
  current_location : String
  pickup_location : String
  dropoff_location : String
  current_cycle_hours : ℤ
  total_distance_miles : ℚ
  total_drive_hours : ℚ
  estimated_days : ℤ
deriving DecidableEq

/-- The three environment-read configuration values of `TripAPIView.create`
(`views.py` lines 95-97): `DRIVING_HOURS_LIMIT`, `OFF_DUTY_HOURS`,
`FUEL_STOP_MILES`, all parsed with `int(...)`. -/
structure Config where
  driving_hours_limit : ℤ
  off_duty_hours : ℤ
  fuel_stop_miles : ℤ
deriving DecidableEq

/-- The defaults used when the environment variables are absent:
`DRIVING_HOURS_LIMIT=11`, `OFF_DUTY_HOURS=10`, `FUEL_STOP_MILES=1000`. -/
def defaultConfig : Config :=
  { driving_hours_limit := 11, off_duty_hours := 10, fuel_stop_miles := 1000 }

/-- The fuel stops built by `views.py` lines 121-131: one stop per
`i` in `1 .. int(distance_miles // fuel_stop_miles)`, at mile
`round(min(i * fuel_stop_miles, distance_miles), 2)`, duration 0.5 h. -/
def fuelStopsOf (cfg : Config) (distMiles : ℚ) : List Stop :=
  (List.range (⌊distMiles / (cfg.fuel_stop_miles : ℚ)⌋).toNat).map fun j =>
    { stop_type := "fuel",
      location := "Fuel Stop " ++ toString (j + 1),
      mile_marker := round2 (min (((j + 1 : ℕ) : ℚ) * (cfg.fuel_stop_miles : ℚ)) distMiles),
      duration_hours := 1/2 }

/-- The rest stops built by `views.py` lines 133-143: one stop per
`i` in `1 .. int(driving_hours // driving_hours_limit)`, at mile
`round(min(i * driving_hours_limit * 50, distance_miles), 2)` (assumed
50 mph average), duration `off_duty_hours`. -/
def restStopsOf (cfg : Config) (distMiles driveHours : ℚ) : List Stop :=
  (List.range (⌊driveHours / (cfg.driving_hours_limit : ℚ)⌋).toNat).map fun j =>
    { stop_type := "rest",
      location := "Rest Stop " ++ toString (j + 1),
      mile_marker :=
        round2 (min (((j + 1 : ℕ) : ℚ) * (cfg.driving_hours_limit : ℚ) * 50) distMiles),
      duration_hours := (cfg.off_duty_hours : ℚ) }

/-- The initial pickup stop of `views.py` lines 111-119: type `pickup`, at
the pickup location, mile marker 0, duration 0. -/
def pickupStopOf (pickupLocation : String) : Stop :=
  { stop_type := "pickup", location := pickupLocation,
    mile_marker := 0, duration_hours := 0 }

/-- The final dropoff stop of `views.py` lines 146-152: type `dropoff`, at
the dropoff location, mile marker `round(distance_miles, 2)`, duration 0. -/
def dropoffStopOf (dropoffLocation : String) (distMiles : ℚ) : Stop :=
  { stop_type := "dropoff", location := dropoffLocation,
    mile_marker := round2 distMiles, duration_hours := 0 }

/-- The full stop list built by `views.py` lines 110-152, in insertion
order: pickup at mile 0, all fuel stops, all rest stops, dropoff at mile
`round(distance_miles, 2)`. -/
def planStops (cfg : Config) (pickupLocation dropoffLocation : String)
    (distMiles driveHours : ℚ) : List Stop :=
  pickupStopOf pickupLocation ::
    (fuelStopsOf cfg distMiles ++
      (restStopsOf cfg distMiles driveHours ++
        [dropoffStopOf dropoffLocation distMiles]))

/-- One emitted `DailySchedule` row (`views.py` lines 165-172): driving
hours rounded to 2 decimals, on-duty hours = driving + 1 (rounded),
off-duty hours hardcoded to 13. -/
def mkSchedule (day : ℕ) (dayHours : ℚ) : DailySchedule :=
  { day_number := day,
    driving_hours := round2 dayHours,
    on_duty_hours := round2 (dayHours + 1),
    off_duty_hours := 13,
    notes := "Day " ++ toString day ++ " schedule" }

/-- The schedule-generation loop of `views.py` lines 158-176:
`while remaining_hours > 0 and current_day < 30`, consuming
`min(11, remaining_hours)` per day. The guard `current_day < 30` is
encoded structurally as the countdown `fuel = 30 - current_day`, so a call
with `fuel` iterations left and current day `day` corresponds to loop
state `current_day = day`. -/
def scheduleAux : ℕ → ℕ → ℚ → List DailySchedule
  | 0, _, _ => []
  | fuel + 1, day, remaining =>
    if 0 < remaining then
      mkSchedule day (min 11 remaining) ::
        scheduleAux fuel (day + 1) (remaining - min 11 remaining)
    else []

/-- Daily schedules of one planning invocation: the loop starts with
`current_day = 1` and stops no later than `current_day = 29` (guard
`current_day < 30`), i.e. with 29 iterations of fuel. -/
def generateSchedules (totalDriveHours : ℚ) : List DailySchedule :=
  scheduleAux 29 1 totalDriveHours

/-- The aggregate created by one `TripAPIView.create` invocation: the Trip
row plus its owned stops and daily schedules, persisted together. -/
structure PlanResult where
  trip : Trip
  stops : List Stop
  daily_schedules : List DailySchedule
deriving DecidableEq

/-- The planning part of `TripAPIView.create` (`views.py` lines 94-179),
after the provider response has been converted to `distance_miles` and
`driving_hours` (lines 83-86). `current_cycle_hours` passes through a
Django `IntegerField` (truncating `int()` coercion); the Trip stores
distance and drive hours rounded to 2 decimals, and
`estimated_days = max(1, int(driving_hours / 11))`. -/
def planTrip (cfg : Config) (currentLocation pickupLocation dropoffLocation : String)
    (currentCycleHours distMiles driveHours : ℚ) : PlanResult :=
  { trip :=
      { current_location := currentLocation,
        pickup_location := pickupLocation,
        dropoff_location := dropoffLocation,
        current_cycle_hours := pyInt currentCycleHours,
        total_distance_miles := round2 distMiles,
        total_drive_hours := round2 driveHours,
        estimated_days := max 1 (pyInt (driveHours / 11)) },
    stops := planStops cfg pickupLocation dropoffLocation distMiles driveHours,
    daily_schedules := generateSchedules driveHours }

/-- Conversion applied by `TripAPIView.create` line 84 to the provider's
distance in meters. -/
def milesOfMeters (meters : ℚ) : ℚ := meters * (621371 / 1000000000)

/-- Conversion applied by `TripAPIView.create` line 86 to the provider's
duration in seconds. -/
def hoursOfSeconds (seconds : ℚ) : ℚ := seconds / 3600

/-- A log entry as synthesized by `DailyLogsAPIView.get` (a dict with
`start_hour`, `end_hour`, `status`), mirroring the `LogEntry` model's
payload fields. -/
structure LogEntryOut where
  start_hour : ℚ
  end_hour : ℚ
  status : String
deriving DecidableEq

/-- Driving segment of the day log (`views.py` lines 227-233): emitted only
if `driving_hours > 0`, from 8.0 to `8.0 + driving_hours`. -/
def drivingEntries (drivingHours : ℚ) : List LogEntryOut :=
  if 0 < drivingHours then
    [{ start_hour := 8, end_hour := 8 + drivingHours, status := "Driving" }]
  else []

/-- Cursor position after the driving segment (`current_hour` in the code,
starting at 8.0). -/
def cursorAfterDriving (drivingHours : ℚ) : ℚ :=
  if 0 < drivingHours then 8 + drivingHours else 8

/-- Break segment of the day log (`views.py` lines 236-242): a fixed 30-min
break emitted only if `on_duty_hours - driving_hours > 0`. -/
def breakEntries (drivingHours onDutyHours : ℚ) : List LogEntryOut :=
  if 0 < onDutyHours - drivingHours then
    [{ start_hour := cursorAfterDriving drivingHours,
       end_hour := cursorAfterDriving drivingHours + 1/2, status := "Break" }]
  else []

/-- Cursor position after the driving and break segments. -/
def cursorAfter (drivingHours onDutyHours : ℚ) : ℚ :=
  if 0 < onDutyHours - drivingHours then cursorAfterDriving drivingHours + 1/2
  else cursorAfterDriving drivingHours

/-- The day-log synthesis of `DailyLogsAPIView.get` (`views.py` lines
222-250): driving entry, then break entry, then — only when the cursor is
still below 24 — a trailing Off Duty entry up to 24.0. -/
def synthesizeDayLog (drivingHours onDutyHours : ℚ) : List LogEntryOut :=
  (drivingEntries drivingHours ++ breakEntries drivingHours onDutyHours) ++
    (if cursorAfter drivingHours onDutyHours < 24 then
      [{ start_hour := cursorAfter drivingHours onDutyHours, end_hour := 24,
         status := "Off Duty" }]
    else [])

/-!
Lemmas about the schedule-generation loop.
-/

/-- Sum of the per-day `driving_hours` of a list of daily schedules. -/
def sumDrivingHours (l : List DailySchedule) : ℚ :=
  (l.map DailySchedule.driving_hours).sum

lemma sumDrivingHours_nil : sumDrivingHours [] = 0 := rfl

lemma sumDrivingHours_cons (s : DailySchedule) (l : List DailySchedule) :
    sumDrivingHours (s :: l) = s.driving_hours + sumDrivingHours l := by
  simp [sumDrivingHours]

lemma scheduleAux_nonpos (fuel day : ℕ) (r : ℚ) (h : ¬ 0 < r) :
    scheduleAux fuel day r = [] := by
  cases fuel <;> simp [scheduleAux, h]

lemma scheduleAux_length_le (fuel : ℕ) : ∀ (day : ℕ) (r : ℚ),
    (scheduleAux fuel day r).length ≤ fuel := by
  induction fuel with
  | zero => intro day r; simp [scheduleAux]
  | succ k ih =>
    intro day r
    by_cases h : 0 < r
    · simp only [scheduleAux, if_pos h, List.length_cons]
      have := ih (day + 1) (r - min 11 r)
      omega
    · simp [scheduleAux, if_neg h]

lemma scheduleAux_day_numbers (fuel : ℕ) : ∀ (day : ℕ) (r : ℚ) (j : ℕ) (s : DailySchedule),
    (scheduleAux fuel day r)[j]? = some s → s.day_number = day + j := by
  induction fuel with
  | zero => intro day r j s hs; simp [scheduleAux] at hs
  | succ k ih =>
    intro day r j s hs
    by_cases h : 0 < r
    · simp only [scheduleAux, if_pos h] at hs
      cases j with
      | zero =>
        simp only [List.getElem?_cons_zero, Option.some.injEq] at hs
        rw [← hs]
        simp [mkSchedule]
      | succ i =>
        rw [List.getElem?_cons_succ] at hs
        have := ih (day + 1) (r - min 11 r) i s hs
        omega
    · simp [scheduleAux, if_neg h] at hs

lemma scheduleAux_entry_bounds (fuel : ℕ) : ∀ (day : ℕ) (r : ℚ) (s : DailySchedule),
    s ∈ scheduleAux fuel day r → s.driving_hours ≤ 11 ∧ s.off_duty_hours = 13 := by
  induction fuel with
  | zero => intro day r s hs; simp [scheduleAux] at hs
  | succ k ih =>
    intro day r s hs
    by_cases h : 0 < r
    · simp only [scheduleAux, if_pos h, List.mem_cons] at hs
      rcases hs with rfl | hs
      · constructor
        · have hle : min (11 : ℚ) r ≤ ((11 : ℤ) : ℚ) := by
            push_cast
            exact min_le_left _ _
          have h2 := round2_le_intCast hle
          push_cast at h2
          simpa [mkSchedule] using h2
        · simp [mkSchedule]
      · exact ih _ _ s hs
    · simp [scheduleAux, if_neg h] at hs

lemma scheduleAux_sum_le (fuel : ℕ) : ∀ (day : ℕ) (r : ℚ), 0 ≤ r →
    sumDrivingHours (scheduleAux fuel day r) ≤ round2 r := by
  induction fuel with
  | zero =>
    intro day r hr
    simpa [scheduleAux, sumDrivingHours_nil] using round2_nonneg hr
  | succ k ih =>
    intro day r hr
    by_cases h : 0 < r
    · rcases le_or_lt r 11 with h11 | h11
      · have hmin : min (11 : ℚ) r = r := min_eq_right h11
        have hz : scheduleAux k (day + 1) 0 = [] := scheduleAux_nonpos _ _ _ (by simp)
        simp only [scheduleAux, if_pos h, hmin, sub_self, hz, sumDrivingHours_cons,
          sumDrivingHours_nil, mkSchedule, add_zero]
        exact le_refl _
      · have hmin : min (11 : ℚ) r = 11 := min_eq_left (le_of_lt h11)
        have hrec := ih (day + 1) (r - 11) (by linarith)
        simp only [scheduleAux, if_pos h, sumDrivingHours_cons, hmin, mkSchedule]
        rw [round2_eleven, round2_sub_eleven r]
        linarith
    · simpa [scheduleAux_nonpos _ _ _ h, sumDrivingHours_nil] using round2_nonneg hr

lemma scheduleAux_sum_eq (fuel : ℕ) : ∀ (day : ℕ) (r : ℚ), 0 ≤ r →
    r ≤ 11 * (fuel : ℚ) → sumDrivingHours (scheduleAux fuel day r) = round2 r := by
  induction fuel with
  | zero =>
    intro day r hr hb
    have h0 : r = 0 := le_antisymm (by simpa using hb) hr
    simp [h0, scheduleAux_nonpos _ _ _ (by simp : ¬ (0:ℚ) < 0), sumDrivingHours_nil, round2_zero]
  | succ k ih =>
    intro day r hr hb
    by_cases h : 0 < r
    · rcases le_or_lt r 11 with h11 | h11
      · have hmin : min (11 : ℚ) r = r := min_eq_right h11
        have hz : scheduleAux k (day + 1) 0 = [] := scheduleAux_nonpos _ _ _ (by simp)
        simp [scheduleAux, if_pos h, hmin, sub_self, hz, sumDrivingHours_cons,
          sumDrivingHours_nil, mkSchedule]
      · have hmin : min (11 : ℚ) r = 11 := min_eq_left (le_of_lt h11)
        have hb2 : r - 11 ≤ 11 * (k : ℚ) := by
          push_cast at hb
          linarith
        have hrec := ih (day + 1) (r - 11) (by linarith) hb2
        simp only [scheduleAux, if_pos h, sumDrivingHours_cons, hmin, mkSchedule]
        rw [round2_eleven, hrec, round2_sub_eleven r]
        ring
    · have h0 : r = 0 := le_antisymm (not_lt.mp h) hr
      simp [h0, scheduleAux_nonpos _ _ _ (by simp : ¬ (0:ℚ) < 0), sumDrivingHours_nil,
        round2_zero]

lemma scheduleAux_saturated (fuel : ℕ) : ∀ (day : ℕ) (r : ℚ), 11 * (fuel : ℚ) ≤ r →
    sumDrivingHours (scheduleAux fuel day r) = 11 * (fuel : ℚ) ∧
      (scheduleAux fuel day r).length = fuel := by
  induction fuel with
  | zero =>
    intro day r _
    simp [scheduleAux, sumDrivingHours_nil]
  | succ k ih =>
    intro day r hb
    have hk : (0 : ℚ) ≤ (k : ℚ) := Nat.cast_nonneg k
    have h11 : (11 : ℚ) ≤ r := by
      push_cast at hb
      nlinarith
    have h : 0 < r := by linarith
    have hmin : min (11 : ℚ) r = 11 := min_eq_left h11
    have hrec := ih (day + 1) (r - 11) (by push_cast at hb ⊢; linarith)
    simp only [scheduleAux, if_pos h, sumDrivingHours_cons, List.length_cons, hmin, mkSchedule]
    constructor
    · rw [round2_eleven, hrec.1]
      push_cast
      ring
    · rw [hrec.2]

lemma scheduleAux_length_eq (fuel : ℕ) : ∀ (day : ℕ) (r : ℚ), 0 < r →
    r ≤ 11 * (fuel : ℚ) → ((scheduleAux fuel day r).length : ℤ) = ⌈r / 11⌉ := by
  induction fuel with
  | zero =>
    intro day r h0 hb
    exfalso
    simp only [Nat.cast_zero, mul_zero] at hb
    linarith
  | succ k ih =>
    intro day r h0 hb
    rcases le_or_lt r 11 with h11 | h11
    · have hmin : min (11 : ℚ) r = r := min_eq_right h11
      have hz : scheduleAux k (day + 1) (r - min 11 r) = [] := by
        apply scheduleAux_nonpos
        rw [hmin]
        simp
      simp only [scheduleAux, if_pos h0, hz, List.length_cons, List.length_nil]
      have hc1 : ⌈r / 11⌉ ≤ 1 := by
        apply Int.ceil_le.mpr
        push_cast
        rw [div_le_one (by norm_num : (0:ℚ) < 11)]
        exact h11
      have hc2 : 0 < ⌈r / 11⌉ := Int.ceil_pos.mpr (by positivity)
      omega
    · have hmin : min (11 : ℚ) r = 11 := min_eq_left (le_of_lt h11)
      have hb2 : r - 11 ≤ 11 * (k : ℚ) := by
        push_cast at hb
        linarith
      have hrec := ih (day + 1) (r - 11) (by linarith) hb2
      simp only [scheduleAux, if_pos h0, hmin, List.length_cons]
      have hsh : ⌈r / 11⌉ = ⌈(r - 11) / 11⌉ + 1 := by
        have h1 : (r - 11) / 11 + ((1 : ℤ) : ℚ) = r / 11 := by
          push_cast
          ring
        rw [← h1, Int.ceil_add_int]
      push_cast
      omega

/-!
Lemmas about the stop lists.
-/

lemma fuelStopsOf_length (cfg : Config) (d : ℚ) (hd : 0 ≤ d)
    (hc : 0 < cfg.fuel_stop_miles) :
    ((fuelStopsOf cfg d).length : ℤ) = ⌊d / (cfg.fuel_stop_miles : ℚ)⌋ := by
  have hpos : (0 : ℚ) < (cfg.fuel_stop_miles : ℚ) := by exact_mod_cast hc
  have hnn : 0 ≤ ⌊d / (cfg.fuel_stop_miles : ℚ)⌋ :=
    Int.floor_nonneg.mpr (div_nonneg hd (le_of_lt hpos))
  simp [fuelStopsOf, Int.toNat_of_nonneg hnn]

lemma restStopsOf_length (cfg : Config) (d h : ℚ) (hh : 0 ≤ h)
    (hc : 0 < cfg.driving_hours_limit) :
    ((restStopsOf cfg d h).length : ℤ) = ⌊h / (cfg.driving_hours_limit : ℚ)⌋ := by
  have hpos : (0 : ℚ) < (cfg.driving_hours_limit : ℚ) := by exact_mod_cast hc
  have hnn : 0 ≤ ⌊h / (cfg.driving_hours_limit : ℚ)⌋ :=
    Int.floor_nonneg.mpr (div_nonneg hh (le_of_lt hpos))
  simp [restStopsOf, Int.toNat_of_nonneg hnn]

lemma getElem_of_map_range {α : Type} {n j : ℕ} {f : ℕ → α} {s : α}
    (hs : ((List.range n).map f)[j]? = some s) : j < n ∧ s = f j := by
  have hlen : ((List.range n).map f).length = n := by simp
  by_cases hj : j < n
  · rw [List.getElem?_eq_getElem (by omega)] at hs
    simp only [List.getElem_map, List.getElem_range, Option.some.injEq] at hs
    exact ⟨hj, hs.symm⟩
  · rw [List.getElem?_eq_none (by omega)] at hs
    cases hs

lemma fuelStopsOf_mile (cfg : Config) (d : ℚ)
    (hc : 0 < cfg.fuel_stop_miles) (j : ℕ) (s : Stop)
    (hs : (fuelStopsOf cfg d)[j]? = some s) :
    s.mile_marker = min (((j + 1 : ℕ) : ℚ) * (cfg.fuel_stop_miles : ℚ)) d := by
  have hpos : (0 : ℚ) < (cfg.fuel_stop_miles : ℚ) := by exact_mod_cast hc
  rw [fuelStopsOf] at hs
  obtain ⟨hj, rfl⟩ := getElem_of_map_range hs
  have hjz : ((j : ℤ) + 1) ≤ ⌊d / (cfg.fuel_stop_miles : ℚ)⌋ := by
    have h2 : (j : ℤ) + 1 ≤ ((⌊d / (cfg.fuel_stop_miles : ℚ)⌋).toNat : ℤ) := by
      exact_mod_cast hj
    omega
  have h1 : (((j : ℤ) + 1 : ℤ) : ℚ) ≤ d / (cfg.fuel_stop_miles : ℚ) := Int.le_floor.mp hjz
  have hle : (((j + 1 : ℕ) : ℚ) * (cfg.fuel_stop_miles : ℚ)) ≤ d := by
    calc (((j + 1 : ℕ) : ℚ) * (cfg.fuel_stop_miles : ℚ))
        ≤ (d / (cfg.fuel_stop_miles : ℚ)) * (cfg.fuel_stop_miles : ℚ) := by
          apply mul_le_mul_of_nonneg_right _ (le_of_lt hpos)
          push_cast at h1 ⊢
          linarith
      _ = d := div_mul_cancel₀ d (ne_of_gt hpos)
  have hmin : min (((j + 1 : ℕ) : ℚ) * (cfg.fuel_stop_miles : ℚ)) d
      = (((j + 1 : ℕ) : ℚ) * (cfg.fuel_stop_miles : ℚ)) := min_eq_left hle
  have hint : (((j + 1 : ℕ) : ℚ) * (cfg.fuel_stop_miles : ℚ))
      = ((((j : ℤ) + 1) * cfg.fuel_stop_miles : ℤ) : ℚ) := by push_cast; ring
  show round2 (min (((j + 1 : ℕ) : ℚ) * (cfg.fuel_stop_miles : ℚ)) d) = _
  rw [hmin, hint, round2_intCast, ← hint]

lemma restStopsOf_mile (cfg : Config) (d h : ℚ) (j : ℕ) (s : Stop)
    (hs : (restStopsOf cfg d h)[j]? = some s) :
    s.mile_marker
      = min (((j + 1 : ℕ) : ℚ) * (cfg.driving_hours_limit : ℚ) * 50) (round2 d) := by
  rw [restStopsOf] at hs
  obtain ⟨hj, rfl⟩ := getElem_of_map_range hs
  show round2 (min (((j + 1 : ℕ) : ℚ) * (cfg.driving_hours_limit : ℚ) * 50) d) = _
  have hint : (((j + 1 : ℕ) : ℚ) * (cfg.driving_hours_limit : ℚ) * 50)
      = ((((j : ℤ) + 1) * cfg.driving_hours_limit * 50 : ℤ) : ℚ) := by push_cast; ring
  rw [hint, round2_min_intCast, ← hint]

lemma fuelStopsOf_type (cfg : Config) (d : ℚ) :
    ∀ s ∈ fuelStopsOf cfg d, s.stop_type = "fuel" := by
  intro s hs
  simp only [fuelStopsOf, List.mem_map, List.mem_range] at hs
  obtain ⟨j, _, rfl⟩ := hs
  rfl

lemma restStopsOf_type (cfg : Config) (d h : ℚ) :
    ∀ s ∈ restStopsOf cfg d h, s.stop_type = "rest" := by
  intro s hs
  simp only [restStopsOf, List.mem_map, List.mem_range] at hs
  obtain ⟨j, _, rfl⟩ := hs
  rfl

lemma restStopsOf_duration (cfg : Config) (d h : ℚ) :
    ∀ s ∈ restStopsOf cfg d h, s.duration_hours = (cfg.off_duty_hours : ℚ) := by
  intro s hs
  simp only [restStopsOf, List.mem_map, List.mem_range] at hs
  obtain ⟨j, _, rfl⟩ := hs
  rfl

/-!
The day-log query endpoint (`DailyLogsAPIView.get`, `views.py` lines
215-271).
-/

/-- A persisted `DailySchedule` row together with its owning trip id, as
queried by `DailySchedule.objects.get(trip_id=..., day_number=...)`. -/
structure ScheduleRow where
  trip_id : String
  schedule : DailySchedule
deriving DecidableEq

/-- The lookup condition of `DailySchedule.objects.get(trip_id=trip_id,
day_number=day_number)`. -/
def scheduleLookup (tripId : String) (dayNumber : ℕ) (r : ScheduleRow) : Bool :=
  r.trip_id == tripId && r.schedule.day_number == dayNumber

/-- The response payload of a successful day-log query (`views.py` lines
252-260): the synthesized entries plus the day's stored summary fields. -/
structure DayLogData where
  trip_id : String
  day_number : ℕ
  log_entries : List LogEntryOut
  total_driving_hours : ℚ
  total_on_duty_hours : ℚ
  total_off_duty_hours : ℚ
  notes : String
deriving DecidableEq

/-- Builds the success payload from the matched schedule row. -/
def mkDayLogData (tripId : String) (dayNumber : ℕ) (s : DailySchedule) : DayLogData :=
  { trip_id := tripId,
    day_number := dayNumber,
    log_entries := synthesizeDayLog s.driving_hours s.on_duty_hours,
    total_driving_hours := s.driving_hours,
    total_on_duty_hours := s.on_duty_hours,
    total_off_duty_hours := s.off_duty_hours,
    notes := s.notes }

/-- The three response classes of `DailyLogsAPIView.get`: HTTP 200 with the
log payload, HTTP 404 (`DailySchedule.DoesNotExist`), and HTTP 500 (any
other exception caught at the boundary). -/
inductive DayLogResponse where
  | ok (data : DayLogData)
  | notFound (error : String)
  | serverError (error : String)
deriving DecidableEq

/-- The `DailyLogsAPIView.get` endpoint over a store of schedule rows.
Django's `objects.get` raises `DoesNotExist` on zero matches (caught as the
404 branch) and `MultipleObjectsReturned` on two or more (caught by the
generic handler as a 500). -/
def getDailyLogs (db : List ScheduleRow) (tripId : String) (dayNumber : ℕ) :
    DayLogResponse :=
  match db.filter (scheduleLookup tripId dayNumber) with
  | [] => DayLogResponse.notFound "Schedule not found for the specified trip and day"
  | [r] => DayLogResponse.ok (mkDayLogData tripId dayNumber r.schedule)
  | _ :: _ :: _ => DayLogResponse.serverError "multiple DailySchedule rows matched"

/-!
Claim theorems.
-/

/-- C1: for every planning invocation the stop list has the grouped
insertion-order shape — exactly one pickup stop at mile 0 first, then all
fuel stops, then all rest stops, and exactly one dropoff stop at mile
marker equal to the Trip's `total_distance_miles` last. Stated for all
rational distances and drive hours, which subsumes the claim's
quantification over nonnegative ones. -/
theorem planTrip_stop_list_shape (cfg : Config) (cl pl dl : String) (cyc d h : ℚ) :
    ∃ fuels rests : List Stop,
      (planTrip cfg cl pl dl cyc d h).stops
        = pickupStopOf pl :: (fuels ++ rests ++ [dropoffStopOf dl d])
      ∧ (∀ s ∈ fuels, s.stop_type = "fuel")
      ∧ (∀ s ∈ rests, s.stop_type = "rest")
      ∧ (pickupStopOf pl).stop_type = "pickup" ∧ (pickupStopOf pl).mile_marker = 0
      ∧ (dropoffStopOf dl d).stop_type = "dropoff"
      ∧ (dropoffStopOf dl d).mile_marker
          = (planTrip cfg cl pl dl cyc d h).trip.total_distance_miles
      ∧ (planTrip cfg cl pl dl cyc d h).stops.countP
          (fun s => s.stop_type == "pickup") = 1
      ∧ (planTrip cfg cl pl dl cyc d h).stops.countP
          (fun s => s.stop_type == "dropoff") = 1
      ∧ (planTrip cfg cl pl dl cyc d h).stops.head? = some (pickupStopOf pl)
      ∧ (planTrip cfg cl pl dl cyc d h).stops.getLast? = some (dropoffStopOf dl d) := by
  have hFzero : ∀ p : Stop → Bool,
      (∀ s ∈ fuelStopsOf cfg d, p s = false) → (fuelStopsOf cfg d).countP p = 0 := by
    intro p hp
    exact List.countP_eq_zero.mpr (by intro s hs; simp [hp s hs])
  have hRzero : ∀ p : Stop → Bool,
      (∀ s ∈ restStopsOf cfg d h, p s = false) → (restStopsOf cfg d h).countP p = 0 := by
    intro p hp
    exact List.countP_eq_zero.mpr (by intro s hs; simp [hp s hs])
  refine ⟨fuelStopsOf cfg d, restStopsOf cfg d h, by rw [List.append_assoc]; rfl,
    fuelStopsOf_type cfg d, restStopsOf_type cfg d h, rfl, rfl, rfl, rfl, ?_, ?_, rfl, ?_⟩
  · show (pickupStopOf pl :: (fuelStopsOf cfg d
        ++ (restStopsOf cfg d h ++ [dropoffStopOf dl d]))).countP
        (fun s => s.stop_type == "pickup") = 1
    rw [List.countP_cons, List.countP_append, List.countP_append,
      hFzero _ (by intro s hs; simp [fuelStopsOf_type cfg d s hs]),
      hRzero _ (by intro s hs; simp [restStopsOf_type cfg d h s hs])]
    rfl
  · show (pickupStopOf pl :: (fuelStopsOf cfg d
        ++ (restStopsOf cfg d h ++ [dropoffStopOf dl d]))).countP
        (fun s => s.stop_type == "dropoff") = 1
    rw [List.countP_cons, List.countP_append, List.countP_append,
      hFzero _ (by intro s hs; simp [fuelStopsOf_type cfg d s hs]),
      hRzero _ (by intro s hs; simp [restStopsOf_type cfg d h s hs])]
    rfl
  · show (pickupStopOf pl :: (fuelStopsOf cfg d
        ++ (restStopsOf cfg d h ++ [dropoffStopOf dl d]))).getLast?
        = some (dropoffStopOf dl d)
    rw [show pickupStopOf pl :: (fuelStopsOf cfg d
        ++ (restStopsOf cfg d h ++ [dropoffStopOf dl d]))
        = (pickupStopOf pl :: (fuelStopsOf cfg d ++ restStopsOf cfg d h))
          ++ [dropoffStopOf dl d] by simp]
    exact List.getLast?_concat _

/-- C2 counterexample, refuting the claim under either reading of
`total_distance_miles`. Read as the raw planner input: at distance
100.006 mi with 11 drive hours the single rest stop is stored at the
rounded mile 100.01, not at `min(1 * 11 * 50, 100.006) = 100.006`. Read as
the Trip's stored (rounded) field: at raw distance 999.996 mi the code
emits 0 fuel stops while `⌊round2 999.996 / 1000⌋ = ⌊1000 / 1000⌋ = 1`. -/
theorem restStop_mile_not_raw_min :
    restStopsOf defaultConfig (50003/500) 11
      = [{ stop_type := "rest", location := "Rest Stop 1",
           mile_marker := 10001/100, duration_hours := 10 }]
    ∧ min ((((0 : ℕ) + 1 : ℕ) : ℚ) * ((11 : ℤ) : ℚ) * 50) (50003/500) = 50003/500
    ∧ (10001/100 : ℚ) ≠ 50003/500
    ∧ fuelStopsOf defaultConfig (249999/250) = []
    ∧ ⌊round2 (249999/250) / ((1000 : ℤ) : ℚ)⌋ = 1 := by
  refine ⟨?_, ?_, by norm_num, ?_, ?_⟩
  · simp only [restStopsOf, defaultConfig]
    rw [show (⌊(11:ℚ)/((11:ℤ):ℚ)⌋).toNat = 1 by norm_num, show List.range 1 = [0] from rfl]
    simp only [List.map_cons, List.map_nil]
    rw [show (min ((((0:ℕ) + 1 : ℕ) : ℚ) * ((11:ℤ):ℚ) * 50) (50003/500)) = 50003/500 by
      rw [min_eq_right]; norm_num]
    norm_num [round2, roundHalfEven]
    rfl
  · rw [min_eq_right]
    norm_num
  · simp only [fuelStopsOf, defaultConfig]
    rw [show (⌊(249999/250 : ℚ)/((1000:ℤ):ℚ)⌋).toNat = 0 by norm_num]
    rfl
  · norm_num [round2, roundHalfEven]

/-- C2 (amended): the fuel-stop count is `⌊distance / fuel_interval⌋` and
the rest-stop count is `⌊drive_hours / rest_interval⌋` (both computed from
the raw planner inputs); fuel stop `i` sits at mile
`min(i * fuel_interval, distance)` exactly as claimed, while rest stop `i`
sits at mile `min(i * rest_interval * 50, round2 distance)` — the mile
marker is stored rounded to 2 decimals, so the cap is the Trip's stored
total distance, not the raw input. -/
theorem stop_counts_and_positions (cfg : Config) (d h : ℚ)
    (hd : 0 ≤ d) (hh : 0 ≤ h)
    (hf : 0 < cfg.fuel_stop_miles) (hl : 0 < cfg.driving_hours_limit) :
    ((fuelStopsOf cfg d).length : ℤ) = ⌊d / (cfg.fuel_stop_miles : ℚ)⌋
    ∧ ((restStopsOf cfg d h).length : ℤ) = ⌊h / (cfg.driving_hours_limit : ℚ)⌋
    ∧ (∀ j s, (fuelStopsOf cfg d)[j]? = some s →
        s.mile_marker = min (((j + 1 : ℕ) : ℚ) * (cfg.fuel_stop_miles : ℚ)) d)
    ∧ (∀ j s, (restStopsOf cfg d h)[j]? = some s →
        s.mile_marker
          = min (((j + 1 : ℕ) : ℚ) * (cfg.driving_hours_limit : ℚ) * 50) (round2 d)) :=
  ⟨fuelStopsOf_length cfg d hd hf, restStopsOf_length cfg d h hh hl,
    fun j s hs => fuelStopsOf_mile cfg d hf j s hs,
    fun j s hs => restStopsOf_mile cfg d h j s hs⟩

/-- C2
witness: with the defaults, 2500 miles and 25 drive hours give 2 fuel
stops and 2 rest stops. -/
theorem stop_counts_and_positions_witness :
    ((fuelStopsOf defaultConfig 2500).length : ℤ)
        = ⌊(2500 : ℚ) / ((defaultConfig.fuel_stop_miles : ℤ) : ℚ)⌋
    ∧ ((restStopsOf defaultConfig 2500 25).length : ℤ)
        = ⌊(25 : ℚ) / ((defaultConfig.driving_hours_limit : ℤ) : ℚ)⌋ :=
  ⟨(stop_counts_and_positions defaultConfig 2500 25 (by norm_num) (by norm_num)
      (by norm_num [defaultConfig]) (by norm_num [defaultConfig])).1,
    (stop_counts_and_positions defaultConfig 2500 25 (by norm_num) (by norm_num)
      (by norm_num [defaultConfig]) (by norm_num [defaultConfig])).2.1⟩

/-- C3: the sum of the stored per-day `driving_hours` is at most the
Trip's stored `total_drive_hours`, with equality whenever the stored total
is at most `29 * 11` (i.e. `(max_days - 1) * daily_cap`). -/
theorem schedule_driving_sum (cfg : Config) (cl pl dl : String) (cyc d h : ℚ)
    (hh : 0 ≤ h) :
    sumDrivingHours (planTrip cfg cl pl dl cyc d h).daily_schedules
      ≤ (planTrip cfg cl pl dl cyc d h).trip.total_drive_hours
    ∧ ((planTrip cfg cl pl dl cyc d h).trip.total_drive_hours ≤ 29 * 11 →
        sumDrivingHours (planTrip cfg cl pl dl cyc d h).daily_schedules
          = (planTrip cfg cl pl dl cyc d h).trip.total_drive_hours) := by
  have hds : (planTrip cfg cl pl dl cyc d h).daily_schedules = scheduleAux 29 1 h := rfl
  have htd : (planTrip cfg cl pl dl cyc d h).trip.total_drive_hours = round2 h := rfl
  rw [hds, htd]
  constructor
  · exact scheduleAux_sum_le 29 1 h hh
  · intro hb
    rcases le_or_lt h 319 with h319 | h319
    · apply scheduleAux_sum_eq 29 1 h hh
      push_cast
      linarith
    · have hsat := scheduleAux_saturated 29 1 h (by push_cast; linarith)
      rw [hsat.1]
      have hge : ((319 : ℤ) : ℚ) ≤ round2 h := intCast_le_round2 (by push_cast; linarith)
      push_cast at hge ⊢
      linarith

/-- C3 witness: with 25 raw drive hours the stored total is 25 ≤ 319 and
the emitted days (11, 11, 3) sum to exactly the stored total. -/
theorem schedule_driving_sum_witness :
    sumDrivingHours (planTrip defaultConfig "" "" "" 0 0 25).daily_schedules
      = (planTrip defaultConfig "" "" "" 0 0 25).trip.total_drive_hours := by
  apply (schedule_driving_sum defaultConfig "" "" "" 0 0 25 (by norm_num)).2
  have h25 : round2 (25 : ℚ) = 25 := by
    have := round2_intCast 25
    push_cast at this
    exact this
  rw [show (planTrip defaultConfig "" "" "" 0 0 25).trip.total_drive_hours
      = round2 25 from rfl, h25]
  norm_num

/-- C4: for every total drive-hours value, even arbitrarily large or
pathological ones, the schedule loop emits at most `max_days - 1 = 29`
days, day numbers are sequential starting at 1, and each day's stored
driving hours are at most the cap of 11. -/
theorem schedule_generation_bounded (h : ℚ) :
    (generateSchedules h).length ≤ 29
    ∧ (∀ j s, (generateSchedules h)[j]? = some s → s.day_number = 1 + j)
    ∧ (∀ s ∈ generateSchedules h, s.driving_hours ≤ 11) := by
  refine ⟨scheduleAux_length_le 29 1 h, ?_, ?_⟩
  · intro j s hs
    exact scheduleAux_day_numbers 29 1 h j s hs
  · intro s hs
    exact (scheduleAux_entry_bounds 29 1 h s hs).1

/-- C5 counterexample: `estimated_days` is computed from the raw
(pre-rounding) drive hours, not from the Trip's stored field, and the
`max_days` truncation lets it diverge from the emitted day count by more
than one. At raw drive hours 21.996 the Trip stores 22.00 and
`estimated_days = 1` while the claimed formula on the stored field gives 2;
at raw drive hours 341 `estimated_days = 31` while only 29 days are
emitted. -/
theorem estimated_days_claim_fails :
    (planTrip defaultConfig "" "" "" 0 0 (5499/250)).trip.estimated_days = 1
    ∧ max 1 ⌊(planTrip defaultConfig "" "" "" 0 0 (5499/250)).trip.total_drive_hours / 11⌋
        = 2
    ∧ (planTrip defaultConfig "" "" "" 0 0 341).trip.estimated_days = 31
    ∧ (planTrip defaultConfig "" "" "" 0 0 341).daily_schedules.length = 29 := by
  refine ⟨?_, ?_, ?_, ?_⟩
  · norm_num [planTrip, pyInt]
  · norm_num [planTrip, round2, roundHalfEven]
  · norm_num [planTrip, pyInt]
  · exact (scheduleAux_saturated 29 1 341 (by push_cast; norm_num)).2

/-- C5 (amended): `estimated_days = max(1, ⌊raw_drive_hours / 11⌋)` where
the raw (pre-rounding) drive hours are used, and the value differs from
the emitted day count by at most one whenever the raw drive hours are at
most 330 (= `max_days * daily_cap`); beyond that the `max_days` truncation
can make the gap arbitrarily large. -/
theorem estimated_days_formula (cfg : Config) (cl pl dl : String) (cyc d h : ℚ)
    (hh : 0 ≤ h) :
    (planTrip cfg cl pl dl cyc d h).trip.estimated_days = max 1 ⌊h / 11⌋
    ∧ (h ≤ 330 →
        ((planTrip cfg cl pl dl cyc d h).trip.estimated_days
          - ((planTrip cfg cl pl dl cyc d h).daily_schedules.length : ℤ)).natAbs ≤ 1) := by
  have hest : (planTrip cfg cl pl dl cyc d h).trip.estimated_days
      = max 1 (pyInt (h / 11)) := rfl
  have hds : (planTrip cfg cl pl dl cyc d h).daily_schedules = scheduleAux 29 1 h := rfl
  have hp : pyInt (h / 11) = ⌊h / 11⌋ := pyInt_of_nonneg (by positivity)
  constructor
  · rw [hest, hp]
  · intro h330
    rw [hest, hp, hds]
    rcases eq_or_lt_of_le hh with h0 | h0
    · rw [← h0, scheduleAux_nonpos 29 1 0 (by norm_num)]
      norm_num
    · rcases le_or_lt h 319 with h319 | h319
      · have hlen := scheduleAux_length_eq 29 1 h h0 (by push_cast; linarith)
        have hfl : (0 : ℤ) ≤ ⌊h / 11⌋ := Int.floor_nonneg.mpr (by positivity)
        have hcf : ⌈h / 11⌉ ≤ ⌊h / 11⌋ + 1 := Int.ceil_le_floor_add_one _
        have hfc : ⌊h / 11⌋ ≤ ⌈h / 11⌉ := Int.floor_le_ceil _
        have hcp : 0 < ⌈h / 11⌉ := Int.ceil_pos.mpr (by positivity)
        rcases le_total (⌊h / 11⌋) 1 with hm | hm
        · rw [max_eq_left hm]
          omega
        · rw [max_eq_right hm]
          omega
      · have hsat := (scheduleAux_saturated 29 1 h (by push_cast; linarith)).2
        rw [hsat]
        have hfl : (29 : ℤ) ≤ ⌊h / 11⌋ := by
          apply Int.le_floor.mpr
          push_cast
          rw [le_div_iff₀ (by norm_num : (0 : ℚ) < 11)]
          linarith
        have hfu : ⌊h / 11⌋ ≤ 30 := by
          have hq : (h / 11 : ℚ) ≤ 30 := by
            rw [div_le_iff₀ (by norm_num : (0 : ℚ) < 11)]
            linarith
          calc ⌊h / 11⌋ ≤ ⌊(30 : ℚ)⌋ := Int.floor_le_floor hq
            _ = 30 := by norm_num
        rw [max_eq_right (by omega)]
        omega

/-- C5 witness: at 25 raw drive hours the estimate is
`max(1, ⌊25 / 11⌋) = 2`. -/
theorem estimated_days_formula_witness :
    (planTrip defaultConfig "" "" "" 0 0 25).trip.estimated_days
      = max 1 ⌊(25 : ℚ) / 11⌋ :=
  (estimated_days_formula defaultConfig "" "" "" 0 0 25 (by norm_num)).1

/-- C6: the two reference cases of the day-log synthesis. With
`driving_hours=8, on_duty_hours=9` the log is Driving 8.0-16.0,
Break 16.0-16.5, Off Duty 16.5-24.0; with both zero it is the single
entry Off Duty 8.0-24.0. -/
theorem day_log_reference_cases :
    synthesizeDayLog 8 9
      = [⟨8, 16, "Driving"⟩, ⟨16, 33/2, "Break"⟩, ⟨33/2, 24, "Off Duty"⟩]
    ∧ synthesizeDayLog 0 0 = [⟨8, 24, "Off Duty"⟩] := by
  constructor <;>
    norm_num [synthesizeDayLog, drivingEntries, breakEntries, cursorAfter,
      cursorAfterDriving]

/-- C7 counterexample: with `driving_hours = on_duty_hours = 16` the
cursor after driving and break is exactly 24, the trailing Off Duty entry
is omitted, yet the single Driving entry ends exactly at 24 — so the
claim's "the day's entries do not reach 24" is false. -/
theorem day_log_reaches_24 :
    cursorAfter 16 16 = 24
    ∧ synthesizeDayLog 16 16 = [⟨8, 24, "Driving"⟩]
    ∧ ¬ ((24 : ℚ) < 24) := by
  refine ⟨?_, ?_, by norm_num⟩
  · norm_num [cursorAfter, cursorAfterDriving]
  · norm_num [synthesizeDayLog, drivingEntries, breakEntries, cursorAfter,
      cursorAfterDriving]

/-- C7 (amended): for all driving and on-duty hours the synthesized
entries are contiguous and start at 8.0; when the cursor after driving and
break is below 24 the last entry is the trailing Off Duty ending at 24.0;
when the cursor reaches 24 or beyond, the Off Duty entry is omitted and
the last entry ends exactly at the cursor (at or past 24) — the entries
still reach 24, contrary to the claim's final clause. -/
theorem day_log_structure (d u : ℚ) :
    List.Chain' (fun a b => a.end_hour = b.start_hour) (synthesizeDayLog d u)
    ∧ (∃ e t, synthesizeDayLog d u = e :: t ∧ e.start_hour = 8)
    ∧ (cursorAfter d u < 24 →
        (synthesizeDayLog d u).getLast? = some ⟨cursorAfter d u, 24, "Off Duty"⟩)
    ∧ (24 ≤ cursorAfter d u →
        (∀ e ∈ synthesizeDayLog d u, e.status ≠ "Off Duty")
        ∧ ∃ e, (synthesizeDayLog d u).getLast? = some e
            ∧ e.end_hour = cursorAfter d u) := by
  by_cases h1 : 0 < d <;> by_cases h2 : 0 < u - d
  · have hc : cursorAfter d u = 8 + d + 1/2 := by
      simp [cursorAfter, cursorAfterDriving, h1, h2]
    by_cases h3 : cursorAfter d u < 24
    · have hL : synthesizeDayLog d u
          = [⟨8, 8 + d, "Driving"⟩, ⟨8 + d, 8 + d + 1/2, "Break"⟩,
             ⟨cursorAfter d u, 24, "Off Duty"⟩] := by
        simp [synthesizeDayLog, drivingEntries, breakEntries, cursorAfterDriving, h1, h2, h3]
      refine ⟨?_, ⟨_, _, hL, rfl⟩, fun _ => by rw [hL]; rfl,
        fun h24 => absurd h3 (not_lt.mpr h24)⟩
      rw [hL]
      simp [List.chain'_cons, hc]
    · have hL : synthesizeDayLog d u
          = [⟨8, 8 + d, "Driving"⟩, ⟨8 + d, 8 + d + 1/2, "Break"⟩] := by
        simp [synthesizeDayLog, drivingEntries, breakEntries, cursorAfterDriving, h1, h2, h3]
      refine ⟨?_, ⟨_, _, hL, rfl⟩, fun hlt => absurd hlt h3, fun _ => ⟨?_, ?_⟩⟩
      · rw [hL]
        simp [List.chain'_cons]
      · intro e he
        rw [hL] at he
        simp only [List.mem_cons, List.not_mem_nil, or_false] at he
        rcases he with rfl | rfl <;> simp
      · exact ⟨⟨8 + d, 8 + d + 1/2, "Break"⟩, by rw [hL]; rfl, by rw [hc]⟩
  · have hc : cursorAfter d u = 8 + d := by
      simp [cursorAfter, cursorAfterDriving, h1, h2]
    by_cases h3 : cursorAfter d u < 24
    · have hL : synthesizeDayLog d u
          = [⟨8, 8 + d, "Driving"⟩, ⟨cursorAfter d u, 24, "Off Duty"⟩] := by
        simp [synthesizeDayLog, drivingEntries, breakEntries, cursorAfterDriving, h1, h2, h3]
      refine ⟨?_, ⟨_, _, hL, rfl⟩, fun _ => by rw [hL]; rfl,
        fun h24 => absurd h3 (not_lt.mpr h24)⟩
      rw [hL]
      simp [List.chain'_cons, hc]
    · have hL : synthesizeDayLog d u = [⟨8, 8 + d, "Driving"⟩] := by
        simp [synthesizeDayLog, drivingEntries, breakEntries, cursorAfterDriving, h1, h2, h3]
      refine ⟨?_, ⟨_, _, hL, rfl⟩, fun hlt => absurd hlt h3, fun _ => ⟨?_, ?_⟩⟩
      · rw [hL]
        simp
      · intro e he
        rw [hL] at he
        simp only [List.mem_cons, List.not_mem_nil, or_false] at he
        rcases he with rfl
        simp
      · exact ⟨⟨8, 8 + d, "Driving"⟩, by rw [hL]; rfl, by rw [hc]⟩
  · have hc : cursorAfter d u = 8 + 1/2 := by
      simp [cursorAfter, cursorAfterDriving, h1, h2]
    have h3 : cursorAfter d u < 24 := by
      rw [hc]
      norm_num
    have hL : synthesizeDayLog d u
        = [⟨8, 8 + 1/2, "Break"⟩, ⟨cursorAfter d u, 24, "Off Duty"⟩] := by
      simp [synthesizeDayLog, drivingEntries, breakEntries, cursorAfterDriving, h1, h2, h3]
    refine ⟨?_, ⟨_, _, hL, rfl⟩, fun _ => by rw [hL]; rfl,
      fun h24 => absurd h3 (not_lt.mpr h24)⟩
    rw [hL]
    simp [List.chain'_cons, hc]
  · have hc : cursorAfter d u = 8 := by
      simp [cursorAfter, cursorAfterDriving, h1, h2]
    have h3 : cursorAfter d u < 24 := by
      rw [hc]
      norm_num
    have hL : synthesizeDayLog d u = [⟨cursorAfter d u, 24, "Off Duty"⟩] := by
      simp [synthesizeDayLog, drivingEntries, breakEntries, cursorAfterDriving, h1, h2, h3]
    refine ⟨?_, ⟨_, _, hL, ?_⟩, fun _ => by rw [hL]; rfl,
      fun h24 => absurd h3 (not_lt.mpr h24)⟩
    · rw [hL]
      simp
    · rw [hc]

/-- C8 counterexample: with `DRIVING_HOURS_LIMIT=5` and `OFF_DUTY_HOURS=7`
overrides and 11 raw drive hours, the emitted day still has
`driving_hours = 11` (the hardcoded `min(11, remaining)` chunk, exceeding
the configured cap 5) and `off_duty_hours = 13` (hardcoded, not the
configured 7). -/
theorem schedule_ignores_overrides :
    (planTrip ⟨5, 7, 1000⟩ "" "" "" 0 0 11).daily_schedules.map
        DailySchedule.driving_hours = [11]
    ∧ ¬ ((11 : ℚ) ≤ ((5 : ℤ) : ℚ))
    ∧ (planTrip ⟨5, 7, 1000⟩ "" "" "" 0 0 11).daily_schedules.map
        DailySchedule.off_duty_hours = [13]
    ∧ (13 : ℚ) ≠ ((7 : ℤ) : ℚ) := by
  have hsched : (planTrip ⟨5, 7, 1000⟩ "" "" "" 0 0 11).daily_schedules
      = [mkSchedule 1 11] := by
    show generateSchedules 11 = _
    rw [generateSchedules, show (29 : ℕ) = 28 + 1 from rfl]
    rw [show scheduleAux (28 + 1) 1 11
        = mkSchedule 1 (min 11 11) :: scheduleAux 28 2 (11 - min 11 11) from
      if_pos (by norm_num)]
    rw [show min (11 : ℚ) 11 = 11 from min_self 11, show (11 : ℚ) - 11 = 0 by ring]
    rw [scheduleAux_nonpos 28 2 0 (by norm_num)]
  refine ⟨?_, by norm_num, ?_, by norm_num⟩
  · rw [hsched]
    simp [mkSchedule, round2_eleven]
  · rw [hsched]
    simp [mkSchedule]

/-- C8 (amended): configuration overrides are honored only where the code
reads them — the fuel-stop interval governs the fuel-stop count, the
off-duty-hours value becomes the rest-stop duration — but the schedule
generator ignores them: every emitted day is capped at the hardcoded 11
driving hours and carries the hardcoded 13 off-duty hours, whatever the
overrides are. -/
theorem config_overrides_partially_honored (cfg : Config) (d h : ℚ)
    (hd : 0 ≤ d) (hf : 0 < cfg.fuel_stop_miles) :
    ((fuelStopsOf cfg d).length : ℤ) = ⌊d / (cfg.fuel_stop_miles : ℚ)⌋
    ∧ (∀ s ∈ restStopsOf cfg d h, s.duration_hours = (cfg.off_duty_hours : ℚ))
    ∧ (∀ s ∈ generateSchedules h, s.driving_hours ≤ 11 ∧ s.off_duty_hours = 13) := by
  refine ⟨fuelStopsOf_length cfg d hd hf, restStopsOf_duration cfg d h, ?_⟩
  intro s hs
  exact scheduleAux_entry_bounds 29 1 h s hs

/-- C8 witness: with an overridden fuel interval of 200 miles, 500 miles
yield `⌊500 / 200⌋ = 2` fuel stops. -/
theorem config_overrides_partially_honored_witness :
    ((fuelStopsOf ⟨5, 7, 200⟩ 500).length : ℤ) = ⌊(500 : ℚ) / ((200 : ℤ) : ℚ)⌋ :=
  (config_overrides_partially_honored ⟨5, 7, 200⟩ 500 0 (by norm_num) (by norm_num)).1

/-- C9: under the data-model invariant that a day number occurs at most
once per trip (which the planner guarantees, since it emits sequential day
numbers), the day-log query returns the synthesized log with the day's
summary fields when a matching `DailySchedule` exists, a not-found
response when none exists, and never a server error. -/
theorem day_log_query_behavior (db : List ScheduleRow) (tid : String) (day : ℕ)
    (huniq : (db.filter (scheduleLookup tid day)).length ≤ 1) :
    ((∃ r ∈ db, scheduleLookup tid day r = true) →
      ∃ r ∈ db, scheduleLookup tid day r = true ∧
        getDailyLogs db tid day = DayLogResponse.ok (mkDayLogData tid day r.schedule))
    ∧ ((∀ r ∈ db, scheduleLookup tid day r = false) →
      getDailyLogs db tid day
        = DayLogResponse.notFound "Schedule not found for the specified trip and day")
    ∧ (∀ e, getDailyLogs db tid day ≠ DayLogResponse.serverError e) := by
  rcases hfl : db.filter (scheduleLookup tid day) with _ | ⟨r, rest⟩
  · have hget : getDailyLogs db tid day
        = DayLogResponse.notFound "Schedule not found for the specified trip and day" := by
      unfold getDailyLogs
      rw [hfl]
    refine ⟨?_, fun _ => hget, ?_⟩
    · rintro ⟨r, hr, hm⟩
      have hmem : r ∈ db.filter (scheduleLookup tid day) := List.mem_filter.mpr ⟨hr, hm⟩
      rw [hfl] at hmem
      cases hmem
    · intro e
      rw [hget]
      intro hcon
      cases hcon
  · rcases rest with _ | ⟨r2, rest2⟩
    · have hget : getDailyLogs db tid day
          = DayLogResponse.ok (mkDayLogData tid day r.schedule) := by
        unfold getDailyLogs
        rw [hfl]
      have hrmem : r ∈ db ∧ scheduleLookup tid day r = true := by
        apply List.mem_filter.mp
        rw [hfl]
        exact List.mem_singleton_self r
      refine ⟨fun _ => ⟨r, hrmem.1, hrmem.2, hget⟩, ?_, ?_⟩
      · intro hnone
        have := hnone r hrmem.1
        rw [hrmem.2] at this
        cases this
      · intro e
        rw [hget]
        intro hcon
        cases hcon
    · exfalso
      rw [hfl] at huniq
      simp at huniq

/-- C9 witness: with a one-row store holding trip `t1` day 1, the query
for (`t1`, 1) returns the synthesized payload, built from that row. -/
theorem day_log_query_behavior_witness :
    getDailyLogs [⟨"t1", ⟨1, 8, 9, 13, "Day 1 schedule"⟩⟩] "t1" 1
      = DayLogResponse.ok (mkDayLogData "t1" 1 ⟨1, 8, 9, 13, "Day 1 schedule"⟩) := by
  obtain ⟨r, hmem, hm, heq⟩ :=
    (day_log_query_behavior [⟨"t1", ⟨1, 8, 9, 13, "Day 1 schedule"⟩⟩] "t1" 1
        (by norm_num [scheduleLookup])).1
      ⟨⟨"t1", ⟨1, 8, 9, 13, "Day 1 schedule"⟩⟩, List.mem_singleton_self _, rfl⟩
  have hr : r = ⟨"t1", ⟨1, 8, 9, 13, "Day 1 schedule"⟩⟩ := List.mem_singleton.mp hmem
  rw [hr] at heq
  exact heq

/-- C10: the planning request's `current_cycle_hours` is accepted as any
nonnegative rational at the interface (serializer `FloatField,
min_value=0`), but the Trip stores it through an `IntegerField`, so the
persisted value is the integer truncation `⌊q⌋` — a fractional input is
not preserved exactly. -/
theorem current_cycle_hours_truncated (cfg : Config) (cl pl dl : String)
    (q d h : ℚ) (hq : 0 ≤ q) :
    (planTrip cfg cl pl dl q d h).trip.current_cycle_hours = ⌊q⌋ := by
  show pyInt q = ⌊q⌋
  exact pyInt_of_nonneg hq

/-- C10 witness: the fractional input 5.7 is stored as 5, which differs
from the requested value. -/
theorem current_cycle_hours_truncated_witness :
    (planTrip defaultConfig "" "" "" (57/10) 0 0).trip.current_cycle_hours = 5
    ∧ ((5 : ℤ) : ℚ) ≠ 57/10 := by
  constructor
  · rw [current_cycle_hours_truncated defaultConfig "" "" "" (57/10) 0 0 (by norm_num)]
    norm_num
  · norm_num
